import Mathlib

/-!
Shallow embedding of the `verseondemanddiscord` bot (`main.go`).

The Go program is a single-file Discord bot: a configuration loader
(`loadConfiguration`), an HTTP client for a bible-verse API
(`getBibleVerse`), an embed formatter (`createVerseEmbed`), best-effort
send helpers (`SafeSend`, `SafeSendEmbed`) and a message dispatcher
(`messageCreate`).

The embedding is pure and executable:

* The environment (`os.Getenv`), the `.env`-loading outcome, the HTTP
  exchange, the wall clock and the Discord send outcome are explicit
  inputs.
* `encoding/json` is modelled by a small executable JSON parser
  (`parseJson`) and a decoder into the `BibleVerse` struct
  (`decodeBibleVerse`).  The modelled fragment covers objects, arrays,
  strings with the simple escapes, `null`, booleans and integer
  numerals; JSON fractions/exponents decode to Go `float64` values,
  whose IEEE-754 semantics are outside the embedding, so the parser
  maps them to a parse failure, and `\u` escapes are likewise outside
  the fragment.  Every claim below is settled at inputs on which the
  fragment agrees with `encoding/json`.
* Strings are handled through their character lists so that every
  definition reduces in the kernel.
-/

/-- Models the Go constant `Prefix = "!"` from `main.go`. -/
def cmdMark : String := "!"

/-- Models the Go constant `BibleAPIURL` from `main.go`. -/
def bibleAPIURL : String := "https://bible-api.com/data/web/random"

/-- Models the Go constant `EnvFileName = ".env"` from `main.go`. -/
def envFileName : String := ".env"

/-- Models the Go struct `AppConfig`. -/
structure AppConfig where
  discordToken : String
  debug : Bool
  deriving DecidableEq, Repr

/-- Models `loadConfiguration`.  `dotenvErr` is the outcome of
`godotenv.Load(EnvFileName)` (true means the load returned an error,
e.g. the file is missing); `getenv` models `os.Getenv` after the load
attempt (an absent variable reads as `""`).  The Go function returns
an error as soon as `godotenv.Load` fails, and otherwise rejects an
empty `DISCORD_BOT_TOKEN`. -/
def loadConfiguration (dotenvErr : Bool) (getenv : String → String) :
    Except String AppConfig :=
  if dotenvErr then
    Except.error ("error loading " ++ envFileName ++ " file")
  else
    let config : AppConfig :=
      { discordToken := getenv "DISCORD_BOT_TOKEN"
      , debug := getenv "DEBUG" == "true" }
    if config.discordToken = "" then
      Except.error ("DISCORD_BOT_TOKEN is required in " ++ envFileName)
    else
      Except.ok config

/-- JSON values as decoded by `encoding/json` into `interface\x7b\x7d`:
objects become string-keyed maps (association lists here), arrays
become slices, strings stay strings, numbers are kept in the integer
fragment (see the module comment). -/
inductive Json where
  | null
  | bool (b : Bool)
  | num (n : Int)
  | str (s : String)
  | arr (elems : List Json)
  | obj (fs : List (String × Json))

/-- JSON whitespace (RFC 8259, as accepted by `encoding/json`). -/
def isJsonWs (c : Char) : Bool :=
  c = ' ' ∨ c = '\t' ∨ c = '\n' ∨ c = '\r'

/-- Skip leading JSON whitespace. -/
def skipWs : List Char → List Char
  | [] => []
  | c :: cs => if isJsonWs c then skipWs cs else c :: cs

/-- The escapes accepted inside a JSON string literal (the `\u` form is
outside the modelled fragment). -/
def escChar : Char → Option Char
  | '"' => some '"'
  | '\\' => some '\\'
  | '/' => some '/'
  | 'b' => some '\x08'
  | 'f' => some '\x0c'
  | 'n' => some '\n'
  | 'r' => some '\r'
  | 't' => some '\t'
  | _ => none

/-- Parse the rest of a JSON string literal (after the opening quote),
returning the string and the remaining input. -/
def parseStringBody : List Char → Option (String × List Char)
  | [] => none
  | '"' :: cs => some ("", cs)
  | '\\' :: [] => none
  | '\\' :: e :: cs =>
    match escChar e with
    | none => none
    | some ec =>
      match parseStringBody cs with
      | none => none
      | some (s, r) => some (String.mk (ec :: s.data), r)
  | c :: cs =>
    match parseStringBody cs with
    | none => none
    | some (s, r) => some (String.mk (c :: s.data), r)

/-- Accumulate decimal digits. -/
def digitsToNat (acc : Nat) : List Char → Nat × List Char
  | [] => (acc, [])
  | c :: cs =>
    if c.isDigit then digitsToNat (acc * 10 + (c.toNat - 48)) cs
    else (acc, c :: cs)

/-- Parse an integer JSON numeral whose first digit is `d`; a fraction
or exponent would decode to a `float64`, which is outside the modelled
fragment, and a leading zero followed by a digit is a JSON syntax
error. -/
def parseNumberDigits (neg : Bool) (d : Char) (rest : List Char) :
    Option (Json × List Char) :=
  if d == '0' && (match rest with | c2 :: _ => c2.isDigit | [] => false) then
    none
  else
    let p := digitsToNat (d.toNat - 48) rest
    match p.2 with
    | c2 :: _ =>
      if c2 = '.' ∨ c2 = 'e' ∨ c2 = 'E' then none
      else some (Json.num (if neg then -(p.1 : Int) else (p.1 : Int)), p.2)
    | [] => some (Json.num (if neg then -(p.1 : Int) else (p.1 : Int)), p.2)

/-- Parse a JSON numeral starting at `c`. -/
def parseNumberFrom (c : Char) (rest : List Char) :
    Option (Json × List Char) :=
  if c = '-' then
    match rest with
    | d :: rest2 => if d.isDigit then parseNumberDigits true d rest2 else none
    | [] => none
  else if c.isDigit then parseNumberDigits false c rest
  else none

/-- Parse the members of a JSON object after at least one member is
known to be present; `pv` parses one JSON value (the caller passes the
value parser at one fuel unit less). -/
def parseFieldsLoop (pv : List Char → Option (Json × List Char)) :
    Nat → List Char → List (String × Json) → Option (Json × List Char)
  | 0, _, _ => none
  | n + 1, cs, acc =>
    match skipWs cs with
    | '"' :: r =>
      match parseStringBody r with
      | none => none
      | some (key, r2) =>
        match skipWs r2 with
        | ':' :: r3 =>
          match pv r3 with
          | none => none
          | some (v, r4) =>
            match skipWs r4 with
            | ',' :: r5 => parseFieldsLoop pv n r5 (acc ++ [(key, v)])
            | '\x7d' :: r5 => some (Json.obj (acc ++ [(key, v)]), r5)
            | _ => none
        | _ => none
    | _ => none

/-- Parse the elements of a JSON array after at least one element is
known to be present. -/
def parseElemsLoop (pv : List Char → Option (Json × List Char)) :
    Nat → List Char → List Json → Option (Json × List Char)
  | 0, _, _ => none
  | n + 1, cs, acc =>
    match pv cs with
    | none => none
    | some (v, r) =>
      match skipWs r with
      | ',' :: r2 => parseElemsLoop pv n r2 (acc ++ [v])
      | ']' :: r2 => some (Json.arr (acc ++ [v]), r2)
      | _ => none

/-- Parse one JSON value.  The fuel bounds the nesting depth; the
top-level entry point supplies more fuel than the input length, which
is always sufficient because each nesting level consumes at least one
input character. -/
def parseValue : Nat → List Char → Option (Json × List Char)
  | 0, _ => none
  | fuel + 1, cs =>
    match skipWs cs with
    | [] => none
    | c :: rest =>
      if c = '\x7b' then
        match skipWs rest with
        | '\x7d' :: r => some (Json.obj [], r)
        | _ => parseFieldsLoop (parseValue fuel) (rest.length + 1) rest []
      else if c = '[' then
        match skipWs rest with
        | ']' :: r => some (Json.arr [], r)
        | _ => parseElemsLoop (parseValue fuel) (rest.length + 1) rest []
      else if c = '"' then
        match parseStringBody rest with
        | none => none
        | some (s, r) => some (Json.str s, r)
      else if c = 'n' then
        match rest with
        | 'u' :: 'l' :: 'l' :: r => some (Json.null, r)
        | _ => none
      else if c = 't' then
        match rest with
        | 'r' :: 'u' :: 'e' :: r => some (Json.bool true, r)
        | _ => none
      else if c = 'f' then
        match rest with
        | 'a' :: 'l' :: 's' :: 'e' :: r => some (Json.bool false, r)
        | _ => none
      else parseNumberFrom c rest

/-- Parse a whole JSON document: one value, optionally surrounded by
whitespace; anything else after the value is a syntax error (as in
`json.Unmarshal`). -/
def parseJson (cs : List Char) : Option Json :=
  match parseValue (cs.length + 1) cs with
  | none => none
  | some (j, r) =>
    match skipWs r with
    | [] => some j
    | _ => none

/-- Models the Go struct `BibleVerse` with its two
`map[string]interface\x7b\x7d` fields (`json:"translation"` and
`json:"random_verse"`); the maps are association lists whose iteration
order is, as in Go, not specified by any claim. -/
structure BibleVerse where
  translation : List (String × Json)
  randomVerse : List (String × Json)

/-- Map-style insertion: later JSON keys overwrite earlier ones, as
when `encoding/json` fills a Go map. -/
def assocSet (m : List (String × Json)) (k : String) (v : Json) :
    List (String × Json) :=
  match m with
  | [] => [(k, v)]
  | (k2, v2) :: rest =>
    if k2 = k then (k2, v) :: rest else (k2, v2) :: assocSet rest k v

/-- Decode a JSON value into a `map[string]interface\x7b\x7d`: an
object yields its members (duplicate keys: last one wins), `null`
leaves the map nil (which iterates like an empty map), and any other
value is an `UnmarshalTypeError`. -/
def decodeStringMap : Json → Option (List (String × Json))
  | Json.null => some []
  | Json.obj fs => some (fs.foldl (fun m kv => assocSet m kv.1 kv.2) [])
  | _ => none

/-- ASCII case folding of an object key; `encoding/json` matches struct
field tags case-insensitively (full Unicode folding is outside the
modelled fragment). -/
def foldKey (s : String) : String :=
  String.mk (s.data.map Char.toLower)

/-- One step of filling the `BibleVerse` struct from an object member:
a member whose key matches a tag overwrites that field (document
order, last one wins), a mismatched member is ignored, and a matched
member whose value is not an object/null is a decode error. -/
def decodeFieldStep (acc : Option BibleVerse) (kv : String × Json) :
    Option BibleVerse :=
  match acc with
  | none => none
  | some bv =>
    if foldKey kv.1 = "translation" then
      match decodeStringMap kv.2 with
      | none => none
      | some m => some { bv with translation := m }
    else if foldKey kv.1 = "random_verse" then
      match decodeStringMap kv.2 with
      | none => none
      | some m => some { bv with randomVerse := m }
    else some bv

/-- Decode a parsed JSON document into `BibleVerse`, as
`json.Unmarshal` does for the struct: the document must be an object
(or `null`, which leaves the zero value); absent fields stay nil. -/
def decodeBibleVerse : Json → Option BibleVerse
  | Json.null => some { translation := [], randomVerse := [] }
  | Json.obj fs =>
    fs.foldl decodeFieldStep (some { translation := [], randomVerse := [] })
  | _ => none

/-- Models `json.Unmarshal(body, &verse)`. -/
def unmarshal (body : List Char) : Option BibleVerse :=
  (parseJson body).bind decodeBibleVerse

/-- The error cases of `getBibleVerse`, one per `return nil, ...`
branch in the Go function. -/
inductive FetchError where
  | requestFailed (cause : String)
  | badStatus (code : Nat)
  | readFailed (cause : String)
  | decodeFailed
  deriving DecidableEq, Repr

/-- The outcome of the single `client.Get(BibleAPIURL)` call:
either the request itself fails, or a response arrives with a status
code, a possible error while reading the (limited) body, and the body
bytes the server delivers. -/
inductive GetResult where
  | failure (cause : String)
  | response (statusCode : Nat) (readErr : Option String) (body : List Char)
  deriving DecidableEq, Repr

/-- Models `getBibleVerse`: check the status, read at most 10 KiB of
the body (`io.LimitReader(resp.Body, 10*1024)` truncates, it does not
fail on longer bodies), then unmarshal. -/
def getBibleVerse (r : GetResult) : Except FetchError BibleVerse :=
  match r with
  | GetResult.failure cause => Except.error (FetchError.requestFailed cause)
  | GetResult.response statusCode readErr body =>
    if statusCode ≠ 200 then Except.error (FetchError.badStatus statusCode)
    else
      match readErr with
      | some cause => Except.error (FetchError.readFailed cause)
      | none =>
        match unmarshal (body.take (10 * 1024)) with
        | none => Except.error FetchError.decodeFailed
        | some verse => Except.ok verse

/-- `getBibleVerse` run against a stream of available attempt
outcomes: the Go function performs exactly one GET and never retries,
so only attempt `0` is consumed. -/
def getBibleVerseOracle (attempts : Nat → GetResult) :
    Except FetchError BibleVerse :=
  getBibleVerse (attempts 0)

/-- Concatenation of a list of strings (the body lines of the embed). -/
def concatLines : List String → String
  | [] => ""
  | x :: xs => x ++ concatLines xs

/-- Space-separated join, as `fmt` renders slices and maps. -/
def joinSpaced : List String → String
  | [] => ""
  | [x] => x
  | x :: y :: xs => x ++ " " ++ joinSpaced (y :: xs)

/-- Insertion into a lexicographically sorted list of strings. -/
def insertSorted (x : String) : List String → List String
  | [] => [x]
  | y :: ys => if x < y then x :: y :: ys else y :: insertSorted x ys

/-- Sort strings lexicographically; `fmt` prints Go maps with sorted
keys. -/
def sortStrings : List String → List String
  | [] => []
  | x :: xs => insertSorted x (sortStrings xs)

/-- Models `fmt.Sprintf("%v", value)` on a decoded JSON value held in
an `interface\x7b\x7d`: strings print verbatim, booleans as
`true`/`false`, integer-valued numbers as their numeral, a nil value
as `<nil>`, slices space-separated in brackets, and maps as
`map[k:v ...]` with sorted entries. -/
def formatValue : Json → String
  | Json.null => "<nil>"
  | Json.bool true => "true"
  | Json.bool false => "false"
  | Json.num n => toString n
  | Json.str s => s
  | Json.arr elems =>
    "[" ++ joinSpaced (elems.attach.map (fun e => formatValue e.1)) ++ "]"
  | Json.obj fs =>
    "map[" ++
      joinSpaced
        (sortStrings
          (fs.attach.map (fun kv => kv.1.1 ++ ":" ++ formatValue kv.1.2))) ++
      "]"
decreasing_by
  · have h := List.sizeOf_lt_of_mem e.2
    simp only [Json.arr.sizeOf_spec]
    omega
  · have h := List.sizeOf_lt_of_mem kv.2
    obtain ⟨⟨k, v⟩, hm⟩ := kv
    simp only [Prod.mk.sizeOf_spec] at h
    simp only [Json.obj.sizeOf_spec]
    omega

/-- One `- key: value` body line, as written by
`fmt.Sprintf("- %s: %v\n", key, value)`. -/
def entryLine (kv : String × Json) : String :=
  "- " ++ kv.1 ++ ": " ++ formatValue kv.2 ++ "\n"

/-- The fixed embed title in `createVerseEmbed`. -/
def verseTitle : String := "Daily Bible Verse 📖"

/-- The first body header written by `createVerseEmbed`. -/
def transHeader : String := "**Translation Details:**\n"

/-- The second body header written by `createVerseEmbed` (including
the preceding blank line). -/
def rvHeader : String := "\n**Random Verse:**\n"

/-- Models `discordgo.MessageEmbed` as used here: title, description,
color and timestamp. -/
structure MessageEmbed where
  title : String
  description : String
  color : Nat
  timestamp : String
  deriving DecidableEq, Repr

/-- Models `createVerseEmbed`: a `strings.Builder` writes the first
header, one line per `Translation` entry, the second header, and one
line per `RandomVerse` entry; the embed carries the fixed title, the
color `0x3498db`, and the RFC3339-formatted formatting-time clock
reading `now` (the one impurity of the Go function,
`time.Now().Format(time.RFC3339)`, passed here as an input). -/
def createVerseEmbed (verse : BibleVerse) (now : String) : MessageEmbed :=
  let b1 := transHeader
  let b2 := verse.translation.foldl (fun acc kv => acc ++ entryLine kv) b1
  let b3 := b2 ++ rvHeader
  let b4 := verse.randomVerse.foldl (fun acc kv => acc ++ entryLine kv) b3
  { title := verseTitle
  , description := b4
  , color := 0x3498db
  , timestamp := now }

/-- The read-only view of an inbound Discord message used by
`messageCreate`: `m.Author.ID`, `m.Author.Username`, `m.ChannelID`,
`m.Content`. -/
structure IncomingMessage where
  authorID : String
  username : String
  channelID : String
  content : String
  deriving DecidableEq, Repr

/-- An outbound send attempt: plain text via
`s.ChannelMessageSend` or a rich card via
`s.ChannelMessageSendEmbed`, each targeted at a channel. -/
inductive Send where
  | text (channelID content : String)
  | embed (channelID : String) (e : MessageEmbed)
  deriving DecidableEq, Repr

/-- The channel a send attempt targets. -/
def Send.channel : Send → String
  | Send.text channelID _ => channelID
  | Send.embed channelID _ => channelID

/-- Models `SafeSend`: the send is always attempted; `sendErr` is the
outcome of the underlying `ChannelMessageSend`.  The result is the
attempted send together with the log lines: an error is logged and
otherwise ignored — the function has no error to propagate. -/
def SafeSend (channelID content : String) (sendErr : Option String) :
    List Send × List String :=
  ( [Send.text channelID content]
  , match sendErr with
    | some e => ["Error sending message to channel " ++ channelID ++ ": " ++ e]
    | none => [] )

/-- Models `SafeSendEmbed`, analogously to `SafeSend`. -/
def SafeSendEmbed (channelID : String) (e : MessageEmbed)
    (sendErr : Option String) : List Send × List String :=
  ( [Send.embed channelID e]
  , match sendErr with
    | some err => ["Embed send error in channel " ++ channelID ++ ": " ++ err]
    | none => [] )

/-- Whitespace as recognised by `strings.Fields` (`unicode.IsSpace`),
restricted to the ASCII fragment. -/
def isSpaceChar (c : Char) : Bool :=
  c = ' ' ∨ c = '\t' ∨ c = '\n' ∨ c = '\x0b' ∨ c = '\x0c' ∨ c = '\r'

/-- Worker for `fields`: `cur` holds the characters of the current
token in reverse. -/
def fieldsAux (cur : List Char) : List Char → List String
  | [] => if cur.isEmpty then [] else [String.mk cur.reverse]
  | c :: cs =>
    if isSpaceChar c then
      if cur.isEmpty then fieldsAux [] cs
      else String.mk cur.reverse :: fieldsAux [] cs
    else fieldsAux (c :: cur) cs

/-- Models `strings.Fields`: split around runs of whitespace. -/
def fields (s : String) : List String :=
  fieldsAux [] s.data

/-- Models `strings.HasPrefix`. -/
def hasPrefixOf (s p : String) : Bool :=
  p.data.isPrefixOf s.data

/-- Models `strings.TrimPrefix`. -/
def trimPrefixOf (s p : String) : String :=
  if hasPrefixOf s p then String.mk (s.data.drop p.data.length) else s

/-- The fixed greeting sent for `!hello`. -/
def helloText : String :=
  "Hello! I\x27m your Bible verse bot. Type !verse for a random verse!"

/-- The fixed reply sent for `!ping`. -/
def pongText : String := "Pong! 🏓"

/-- The fixed apology sent when the verse fetch fails. -/
def apologyText : String := "Sorry, I couldn\x27t retrieve a verse right now."

/-- The fixed reply sent for an unmatched command. -/
def unknownText : String := "Unknown command. Try !hello, !ping, or !verse"

/-- The error text of a `FetchError`, mirroring the `fmt.Errorf`
messages in `getBibleVerse` (the wrapped cause of a decode failure is
the `encoding/json` error, abstracted here). -/
def FetchError.message : FetchError → String
  | FetchError.requestFailed cause =>
    "bible verse API request failed: " ++ cause
  | FetchError.badStatus code =>
    "bible verse API returned status: " ++ toString code
  | FetchError.readFailed cause => "error reading API response: " ++ cause
  | FetchError.decodeFailed => "failed to parse verse data"

/-- Models the `messageCreate` handler.  Inputs beyond the message:
`selfID` is `s.State.User.ID`, `fetch` the outcome of the (single)
HTTP exchange should the `verse` command run, `now` the formatting
clock, and `sendErr` the outcome of the (at most one) underlying
Discord send.  The result is the list of send attempts and the log
lines; the handler itself cannot fail. -/
def messageCreate (selfID : String) (m : IncomingMessage)
    (fetch : GetResult) (now : String) (sendErr : Option String) :
    List Send × List String :=
  if m.authorID = selfID then ([], [])
  else
    let recvLog :=
      "Message received in channel " ++ m.channelID ++ " from " ++
        m.username ++ ": " ++ m.content
    if hasPrefixOf m.content cmdMark then
      let content := trimPrefixOf m.content cmdMark
      match fields content with
      | [] => ([], [recvLog])
      | command :: _ =>
        if command = "hello" then
          let r := SafeSend m.channelID helloText sendErr
          (r.1, recvLog :: r.2)
        else if command = "ping" then
          let r := SafeSend m.channelID pongText sendErr
          (r.1, recvLog :: r.2)
        else if command = "verse" then
          match getBibleVerse fetch with
          | Except.error e =>
            let r := SafeSend m.channelID apologyText sendErr
            ( r.1
            , recvLog :: ("Verse retrieval error: " ++ e.message) :: r.2 )
          | Except.ok verse =>
            let embed := createVerseEmbed verse now
            let r := SafeSendEmbed m.channelID embed sendErr
            (r.1, recvLog :: r.2)
        else
          let r := SafeSend m.channelID unknownText sendErr
          (r.1, recvLog :: r.2)
    else ([], [recvLog])

/-! ### Helper lemmas -/

theorem strAppend_empty : ∀ s : String, s ++ "" = s
  | String.mk s => congrArg String.mk (List.append_nil s)

theorem strAppend_assoc : ∀ a b c : String, a ++ b ++ c = a ++ (b ++ c)
  | String.mk a, String.mk b, String.mk c =>
    congrArg String.mk (List.append_assoc a b c)

/-- A `strings.Builder` fold over entry lines, started from any
already-written content, appends the concatenation of the lines. -/
theorem foldl_entryLine (l : List (String × Json)) :
    ∀ s : String,
      l.foldl (fun acc kv => acc ++ entryLine kv) s =
        s ++ concatLines (l.map entryLine) := by
  induction l with
  | nil => intro s; simp [concatLines, strAppend_empty]
  | cons kv tl ih =>
    intro s
    simp only [List.foldl_cons, List.map_cons, concatLines]
    rw [ih, strAppend_assoc]

/-- The description produced by `createVerseEmbed`, as a concatenation
of headers and entry lines. -/
theorem createVerseEmbed_eq (verse : BibleVerse) (now : String) :
    createVerseEmbed verse now =
      { title := verseTitle
      , description :=
          transHeader ++ concatLines (verse.translation.map entryLine) ++
            rvHeader ++ concatLines (verse.randomVerse.map entryLine)
      , color := 0x3498db
      , timestamp := now } := by
  simp only [createVerseEmbed, foldl_entryLine]

theorem skipWs_replicate_space (n : Nat) :
    skipWs (List.replicate n ' ') = [] := by
  induction n with
  | zero => rfl
  | succ k ih => simpa [List.replicate_succ, skipWs, isJsonWs] using ih

theorem parseValue_emptyObj_ws (fuel n : Nat) :
    parseValue (fuel + 1) ('\x7b' :: '\x7d' :: List.replicate n ' ') =
      some (Json.obj [], List.replicate n ' ') := rfl

theorem parseJson_emptyObj_ws (n : Nat) :
    parseJson ('\x7b' :: '\x7d' :: List.replicate n ' ') =
      some (Json.obj []) := by
  unfold parseJson
  rw [List.length_cons, List.length_cons, List.length_replicate,
    parseValue_emptyObj_ws (n + 1 + 1) n]
  simp [skipWs_replicate_space]

theorem unmarshal_emptyObj_ws (n : Nat) :
    unmarshal ('\x7b' :: '\x7d' :: List.replicate n ' ') =
      some { translation := [], randomVerse := [] } := by
  unfold unmarshal
  rw [parseJson_emptyObj_ws]
  rfl

/-- On a 200 response with no read error, `getBibleVerse` is the
unmarshalling of the first 10 KiB of the body. -/
theorem getBibleVerse_200 (body : List Char) :
    getBibleVerse (GetResult.response 200 none body) =
      (match unmarshal (body.take (10 * 1024)) with
       | none => Except.error FetchError.decodeFailed
       | some verse => Except.ok verse) := by
  simp [getBibleVerse]

/-- The send attempts of `messageCreate`, laid out by case. -/
theorem messageCreate_sends (selfID : String) (m : IncomingMessage)
    (fetch : GetResult) (now : String) (sendErr : Option String) :
    (messageCreate selfID m fetch now sendErr).1 =
      if m.authorID = selfID then []
      else if hasPrefixOf m.content cmdMark then
        match fields (trimPrefixOf m.content cmdMark) with
        | [] => []
        | command :: _ =>
          if command = "hello" then [Send.text m.channelID helloText]
          else if command = "ping" then [Send.text m.channelID pongText]
          else if command = "verse" then
            match getBibleVerse fetch with
            | Except.error _ => [Send.text m.channelID apologyText]
            | Except.ok verse =>
              [Send.embed m.channelID (createVerseEmbed verse now)]
          else [Send.text m.channelID unknownText]
      else [] := by
  by_cases h1 : m.authorID = selfID
  · simp [messageCreate, h1]
  · by_cases h2 : hasPrefixOf m.content cmdMark
    · cases hf : fields (trimPrefixOf m.content cmdMark) with
      | nil => simp [messageCreate, h1, h2, hf]
      | cons command rest =>
        by_cases hh : command = "hello"
        · simp [messageCreate, h1, h2, hf, hh, SafeSend]
        · by_cases hp : command = "ping"
          · simp [messageCreate, h1, h2, hf, hh, hp, SafeSend]
          · by_cases hv : command = "verse"
            · cases hg : getBibleVerse fetch with
              | error e =>
                simp [messageCreate, h1, h2, hf, hh, hp, hv, hg, SafeSend]
              | ok verse =>
                simp [messageCreate, h1, h2, hf, hh, hp, hv, hg, SafeSendEmbed]
            · simp [messageCreate, h1, h2, hf, hh, hp, hv, SafeSend]
    · simp [messageCreate, h1, h2]

/-! ### Claims -/

/-- Claim C1: for every inbound message authored by the bot's own
identity, or whose content does not start with the configured "!"
marker, or with no whitespace-delimited token after the marker is
stripped, `messageCreate` performs no outbound send; for every other
message it performs exactly one outbound send. -/
theorem claim_C1_dispatch_send_count (selfID : String)
    (m : IncomingMessage) (fetch : GetResult) (now : String)
    (sendErr : Option String) :
    (messageCreate selfID m fetch now sendErr).1.length =
      if m.authorID = selfID ∨ hasPrefixOf m.content cmdMark = false ∨
          fields (trimPrefixOf m.content cmdMark) = [] then 0 else 1 := by
  rw [messageCreate_sends]
  by_cases h1 : m.authorID = selfID
  · simp [h1]
  · by_cases h2 : hasPrefixOf m.content cmdMark
    · cases hf : fields (trimPrefixOf m.content cmdMark) with
      | nil => simp [h1, h2, hf]
      | cons command rest =>
        by_cases hh : command = "hello"
        · simp [h1, h2, hh]
        · by_cases hp : command = "ping"
          · simp [h1, h2, hh, hp]
          · by_cases hv : command = "verse"
            · cases hg : getBibleVerse fetch <;>
                simp [h1, h2, hh, hp, hv, hg]
            · simp [h1, h2, hh, hp, hv]
    · simp [h1, h2]

/-- Claim C2: for every message whose first token after the marker is
exactly `verse`, the dispatcher performs exactly one rich-card send of
the formatted payload when `getBibleVerse` succeeds and no plain-text
send, and exactly one plain-text send of the fixed apology text (and
no rich card) when it fails, without propagating the error — the
handler returns normally in both cases. -/
theorem claim_C2_verse_dispatch (selfID : String) (m : IncomingMessage)
    (fetch : GetResult) (now : String) (sendErr : Option String)
    (h1 : m.authorID ≠ selfID)
    (h2 : hasPrefixOf m.content cmdMark = true)
    (h3 : (fields (trimPrefixOf m.content cmdMark)).head? = some "verse") :
    (messageCreate selfID m fetch now sendErr).1 =
      (match getBibleVerse fetch with
       | Except.ok verse =>
         [Send.embed m.channelID (createVerseEmbed verse now)]
       | Except.error _ => [Send.text m.channelID apologyText]) := by
  rw [messageCreate_sends, if_neg h1, if_pos h2]
  cases hf : fields (trimPrefixOf m.content cmdMark) with
  | nil => rw [hf] at h3; exact absurd h3 (by simp)
  | cons command rest =>
    rw [hf] at h3
    rw [List.head?_cons] at h3
    obtain rfl : command = "verse" := Option.some.inj h3
    cases hg : getBibleVerse fetch <;> simp [hg]

/-- Witness for C2 at a concrete failing fetch. -/
theorem claim_C2_witness :
    (messageCreate "bot" ⟨"u1", "alice", "chan", "!verse"⟩
        (GetResult.failure "down") "T" none).1 =
      (match getBibleVerse (GetResult.failure "down") with
       | Except.ok verse =>
         [Send.embed "chan" (createVerseEmbed verse "T")]
       | Except.error _ => [Send.text "chan" apologyText]) :=
  claim_C2_verse_dispatch "bot" ⟨"u1", "alice", "chan", "!verse"⟩
    (GetResult.failure "down") "T" none (by decide) (by decide) (by decide)

/-- Counterexample for C3: a 200 response whose body (an empty JSON
object followed by 20000 spaces) exceeds the 10 KiB cap, yet
`getBibleVerse` returns a successful payload instead of aborting with
an error, because `io.LimitReader` silently truncates the body and the
truncated prefix decodes. -/
theorem claim_C3_counterexample :
    10 * 1024 < ('\x7b' :: '\x7d' :: List.replicate 20000 ' ').length ∧
    getBibleVerse
        (GetResult.response 200 none
          ('\x7b' :: '\x7d' :: List.replicate 20000 ' ')) =
      Except.ok { translation := [], randomVerse := [] } := by
  constructor
  · norm_num [List.length_replicate]
  · rw [getBibleVerse_200]
    have htake : ('\x7b' :: '\x7d' :: List.replicate 20000 ' ').take
        (10 * 1024) = '\x7b' :: '\x7d' :: List.replicate 10238 ' ' := by
      have h1 : (10 * 1024 : Nat) = 10238 + 1 + 1 := by norm_num
      rw [h1, List.take_succ_cons, List.take_succ_cons,
        List.take_replicate]
      norm_num
    rw [htake, unmarshal_emptyObj_ws]

/-- Claim C3, amended: for every 200 response whose body exceeds the
10 KiB cap, `getBibleVerse` never reads more than the cap (its result
depends only on the first 10 KiB of the body), and it returns a
`FetchError` exactly when the truncated 10 KiB prefix fails to decode
— it does not abort merely because the body is oversized. -/
theorem claim_C3_capped_read (body : List Char)
    (_hlen : 10 * 1024 < body.length) :
    getBibleVerse (GetResult.response 200 none body) =
      getBibleVerse (GetResult.response 200 none (body.take (10 * 1024)))
    ∧ ((∃ e, getBibleVerse (GetResult.response 200 none body) =
          Except.error e) ↔
        unmarshal (body.take (10 * 1024)) = none) := by
  constructor
  · rw [getBibleVerse_200, getBibleVerse_200, List.take_take]
    simp
  · rw [getBibleVerse_200]
    cases h : unmarshal (body.take (10 * 1024)) with
    | none => simp
    | some verse => simp

/-- Witness for the amended C3 at the concrete oversized body. -/
theorem claim_C3_witness :
    getBibleVerse
        (GetResult.response 200 none
          ('\x7b' :: '\x7d' :: List.replicate 20000 ' ')) =
      getBibleVerse
        (GetResult.response 200 none
          (('\x7b' :: '\x7d' :: List.replicate 20000 ' ').take
            (10 * 1024))) :=
  (claim_C3_capped_read ('\x7b' :: '\x7d' :: List.replicate 20000 ' ')
    (by norm_num [List.length_replicate])).1

/-- Counterexample for C4: when the `.env` file fails to load,
`loadConfiguration` fails even though the process environment provides
a non-empty `DISCORD_BOT_TOKEN` — the settings file is not optional in
the code. -/
theorem claim_C4_counterexample :
    loadConfiguration true
        (fun k => if k = "DISCORD_BOT_TOKEN" then "tok" else "") =
      Except.error ("error loading " ++ envFileName ++ " file")
    ∧ (fun k => if k = "DISCORD_BOT_TOKEN" then "tok" else "")
        "DISCORD_BOT_TOKEN" ≠ "" := by
  exact ⟨rfl, by decide⟩

/-- Claim C4, amended: `loadConfiguration` reads the credential and
debug flag from the process environment, but loading the `.env`
settings file is mandatory, not optional: it succeeds exactly when the
`.env` load succeeds and the environment provides a non-empty
`DISCORD_BOT_TOKEN`, and on success the configuration carries exactly
the credential and the `DEBUG == "true"` flag read from the
environment. -/
theorem claim_C4_load_configuration (dotenvErr : Bool)
    (getenv : String → String) :
    ((∃ config, loadConfiguration dotenvErr getenv = Except.ok config) ↔
      dotenvErr = false ∧ getenv "DISCORD_BOT_TOKEN" ≠ "")
    ∧ (∀ config, loadConfiguration dotenvErr getenv = Except.ok config →
        config.discordToken = getenv "DISCORD_BOT_TOKEN" ∧
          config.debug = (getenv "DEBUG" == "true")) := by
  cases dotenvErr with
  | true => simp [loadConfiguration]
  | false =>
    by_cases ht : getenv "DISCORD_BOT_TOKEN" = ""
    · constructor
      · simp [loadConfiguration, ht]
      · intro config hconfig
        simp [loadConfiguration, ht] at hconfig
    · constructor
      · simp [loadConfiguration, ht]
      · intro config hconfig
        simp only [loadConfiguration, if_neg ht, if_false] at hconfig
        obtain rfl := Except.ok.inj hconfig
        exact ⟨rfl, rfl⟩

/-- Witness for the amended C4 at a concrete environment. -/
theorem claim_C4_witness :
    (∃ config,
        loadConfiguration false
            (fun k => if k = "DISCORD_BOT_TOKEN" then "tok" else "") =
          Except.ok config)
    ∧ ({ discordToken := "tok", debug := false } : AppConfig).discordToken =
        (fun k => if k = "DISCORD_BOT_TOKEN" then "tok" else "")
          "DISCORD_BOT_TOKEN" := by
  refine ⟨((claim_C4_load_configuration false
    (fun k => if k = "DISCORD_BOT_TOKEN" then "tok" else "")).1.mpr
      ⟨rfl, by decide⟩), ?_⟩
  exact ((claim_C4_load_configuration false
    (fun k => if k = "DISCORD_BOT_TOKEN" then "tok" else "")).2
      { discordToken := "tok", debug := false } rfl).1

/-- Claim C5: `createVerseEmbed` lists every `translationInfo` pair as
one "- key: value" line under the first header, then every `verseInfo`
pair under the second header, in that section order; the rendered
embed carries the fixed title, the fixed color `0x3498db`, and the
RFC3339-formatted formatting-time clock reading `now`. -/
theorem claim_C5_embed_format (verse : BibleVerse) (now : String) :
    createVerseEmbed verse now =
      { title := verseTitle
      , description :=
          transHeader ++ concatLines (verse.translation.map entryLine) ++
            rvHeader ++ concatLines (verse.randomVerse.map entryLine)
      , color := 0x3498db
      , timestamp := now } :=
  createVerseEmbed_eq verse now

/-- Counterexample for C6: a 200 response whose (well-formed) body
read fails mid-stream makes `getBibleVerse` return an error that falls
under none of the claim's three cases — the request succeeded, the
status is 200, and the body is not the reason decoding would fail. -/
theorem claim_C6_counterexample :
    ¬ ((∃ e, getBibleVerse
          (GetResult.response 200 (some "connection reset")
            ("\x7b\x7d".data)) = Except.error e) ↔
        ((∃ cause, GetResult.response 200 (some "connection reset")
            ("\x7b\x7d".data) = GetResult.failure cause) ∨
         (∃ s re body, GetResult.response 200 (some "connection reset")
            ("\x7b\x7d".data) = GetResult.response s re body ∧ s ≠ 200) ∨
         (∃ s body, GetResult.response 200 (some "connection reset")
            ("\x7b\x7d".data) = GetResult.response s none body ∧
            unmarshal (body.take (10 * 1024)) = none))) := by
  intro h
  rcases h.mp ⟨FetchError.readFailed "connection reset", rfl⟩ with
    ⟨cause, hc⟩ | ⟨s, re, body, hr, hs⟩ | ⟨s, body, hr, _⟩
  · exact GetResult.noConfusion hc
  · injection hr with hr1 hr2 hr3
    exact hs hr1.symm
  · injection hr with hr1 hr2 hr3
    exact Option.noConfusion hr2

/-- Claim C6, amended: `getBibleVerse` consumes exactly one GET
attempt (its result depends only on attempt 0 — no retries), and it
returns an error in exactly four cases: the request itself fails, the
status is not 200, reading the response body fails, or the (capped)
body fails to decode; in every other case it returns the decoded
payload. -/
theorem claim_C6_fetch_errors :
    (∀ a b : Nat → GetResult, a 0 = b 0 →
        getBibleVerseOracle a = getBibleVerseOracle b)
    ∧ (∀ r : GetResult,
        (∃ e, getBibleVerse r = Except.error e) ↔
          ((∃ cause, r = GetResult.failure cause) ∨
           (∃ s re body, r = GetResult.response s re body ∧ s ≠ 200) ∨
           (∃ s cause body, r = GetResult.response s (some cause) body) ∨
           (∃ s body, r = GetResult.response s none body ∧
              unmarshal (body.take (10 * 1024)) = none)))
    ∧ (∀ body verse, unmarshal (body.take (10 * 1024)) = some verse →
        getBibleVerse (GetResult.response 200 none body) =
          Except.ok verse) := by
  refine ⟨fun a b h => by unfold getBibleVerseOracle; rw [h], ?_, ?_⟩
  · intro r
    cases r with
    | failure cause => simp [getBibleVerse]
    | response s re body =>
      by_cases hs : s = 200
      · subst hs
        cases re with
        | some cause => simp [getBibleVerse]
        | none =>
          cases hu : unmarshal (body.take (10 * 1024)) with
          | none =>
            simp [getBibleVerse, hu]
            exact ⟨200, body, ⟨rfl, rfl⟩, hu⟩
          | some verse => simp [getBibleVerse, hu]
      · simp [getBibleVerse, hs]
  · intro body verse h
    simp [getBibleVerse, h]

/-- Witness for the amended C6 at concrete inputs. -/
theorem claim_C6_witness :
    getBibleVerseOracle (fun _ => GetResult.failure "down") =
      getBibleVerseOracle (fun n =>
        match n with
        | 0 => GetResult.failure "down"
        | _ + 1 => GetResult.response 500 none [])
    ∧ getBibleVerse (GetResult.response 200 none ("\x7b\x7d".data)) =
        Except.ok { translation := [], randomVerse := [] } :=
  ⟨claim_C6_fetch_errors.1 _ _ rfl, claim_C6_fetch_errors.2.2 _ _ rfl⟩

/-- Claim C7: command dispatch matches the first token exactly and
case-sensitively; every non-ignored message whose first token is
neither `hello`, `ping` nor `verse` gets exactly one plain-text send
of the fixed unknown-command text. -/
theorem claim_C7_unknown_command (selfID : String) (m : IncomingMessage)
    (fetch : GetResult) (now : String) (sendErr : Option String)
    (command : String) (rest : List String)
    (h1 : m.authorID ≠ selfID)
    (h2 : hasPrefixOf m.content cmdMark = true)
    (hf : fields (trimPrefixOf m.content cmdMark) = command :: rest)
    (hh : command ≠ "hello") (hp : command ≠ "ping")
    (hv : command ≠ "verse") :
    (messageCreate selfID m fetch now sendErr).1 =
      [Send.text m.channelID unknownText] := by
  rw [messageCreate_sends, if_neg h1, if_pos h2, hf]
  simp [hh, hp, hv]

/-- Witness for C7 at the case-variant token `Hello`. -/
theorem claim_C7_witness :
    (messageCreate "bot" ⟨"u1", "alice", "chan", "!Hello"⟩
        (GetResult.failure "down") "T" none).1 =
      [Send.text "chan" unknownText] :=
  claim_C7_unknown_command "bot" ⟨"u1", "alice", "chan", "!Hello"⟩
    (GetResult.failure "down") "T" none "Hello" [] (by decide) (by decide)
    (by decide) (by decide) (by decide) (by decide)

/-- Claim C8: every outbound send is best-effort — `SafeSend` and
`SafeSendEmbed` still perform the send attempt and merely log the
error when the underlying send fails, and the sends attempted by the
`messageCreate` handler do not depend on the send outcome at all (a
send failure never aborts message processing). -/
theorem claim_C8_best_effort_sends :
    (∀ channelID content e, SafeSend channelID content (some e) =
        ( [Send.text channelID content]
        , ["Error sending message to channel " ++ channelID ++ ": " ++ e]))
    ∧ (∀ channelID em e, SafeSendEmbed channelID em (some e) =
        ( [Send.embed channelID em]
        , ["Embed send error in channel " ++ channelID ++ ": " ++ e]))
    ∧ (∀ selfID m fetch now e1 e2,
        (messageCreate selfID m fetch now e1).1 =
          (messageCreate selfID m fetch now e2).1) := by
  refine ⟨fun _ _ _ => rfl, fun _ _ _ => rfl,
    fun selfID m fetch now e1 e2 => ?_⟩
  rw [messageCreate_sends, messageCreate_sends]

/-- Claim C9: every outbound send performed by the dispatcher targets
the channel the inbound message arrived on. -/
theorem claim_C9_channel_targeting (selfID : String)
    (m : IncomingMessage) (fetch : GetResult) (now : String)
    (sendErr : Option String) :
    ∀ s ∈ (messageCreate selfID m fetch now sendErr).1,
      s.channel = m.channelID := by
  intro s hs
  rw [messageCreate_sends] at hs
  by_cases h1 : m.authorID = selfID
  · simp [h1] at hs
  · by_cases h2 : hasPrefixOf m.content cmdMark
    · cases hf : fields (trimPrefixOf m.content cmdMark) with
      | nil => simp [h1, h2, hf] at hs
      | cons command rest =>
        rw [if_neg h1, if_pos h2, hf] at hs
        by_cases hh : command = "hello"
        · simp [hh] at hs
          simp [hs, Send.channel]
        · by_cases hp : command = "ping"
          · simp [hh, hp] at hs
            simp [hs, Send.channel]
          · by_cases hv : command = "verse"
            · cases hg : getBibleVerse fetch with
              | error e =>
                simp [hh, hp, hv, hg] at hs
                simp [hs, Send.channel]
              | ok verse =>
                simp [hh, hp, hv, hg] at hs
                simp [hs, Send.channel]
            · simp [hh, hp, hv] at hs
              simp [hs, Send.channel]
    · simp [h1, h2] at hs

/-- Witness for C9 at a concrete `!ping` message. -/
theorem claim_C9_witness :
    Send.channel (Send.text "chan" pongText) = "chan" :=
  claim_C9_channel_targeting "bot" ⟨"u1", "alice", "chan", "!ping"⟩
    (GetResult.failure "down") "T" none (Send.text "chan" pongText)
    (by decide)

/-- Folding object members none of which matches a struct field leaves
the accumulated struct unchanged. -/
theorem foldl_decodeFieldStep_skip (fs : List (String × Json))
    (bv : BibleVerse)
    (h : ∀ kv ∈ fs, foldKey kv.1 ≠ "translation" ∧
        foldKey kv.1 ≠ "random_verse") :
    fs.foldl decodeFieldStep (some bv) = some bv := by
  induction fs generalizing bv with
  | nil => rfl
  | cons kv tl ih =>
    have hkv := h kv (List.mem_cons_self kv tl)
    rw [List.foldl_cons]
    have hstep : decodeFieldStep (some bv) kv = some bv := by
      simp [decodeFieldStep, hkv.1, hkv.2]
    rw [hstep]
    exact ih bv (fun x hx => h x (List.mem_cons_of_mem kv hx))

/-- Folding object members none of which matches `translation` (and
whose `random_verse` matches all decode) keeps `translation` empty. -/
theorem foldl_decodeFieldStep_noTrans (fs : List (String × Json)) :
    ∀ (t rv : List (String × Json)),
      (∀ kv ∈ fs, foldKey kv.1 ≠ "translation") →
      (∀ kv ∈ fs, foldKey kv.1 = "random_verse" →
        decodeStringMap kv.2 ≠ none) →
      ∃ rv2, fs.foldl decodeFieldStep
          (some { translation := t, randomVerse := rv }) =
        some { translation := t, randomVerse := rv2 } := by
  induction fs with
  | nil => exact fun t rv _ _ => ⟨rv, rfl⟩
  | cons kv tl ih =>
    intro t rv h1 h2
    have hk1 := h1 kv (List.mem_cons_self kv tl)
    rw [List.foldl_cons]
    by_cases hk2 : foldKey kv.1 = "random_verse"
    · have hd := h2 kv (List.mem_cons_self kv tl) hk2
      cases hm : decodeStringMap kv.2 with
      | none => exact absurd hm hd
      | some mp =>
        have hstep : decodeFieldStep
            (some { translation := t, randomVerse := rv }) kv =
            some { translation := t, randomVerse := mp } := by
          simp [decodeFieldStep, hk1, hk2, hm]
        rw [hstep]
        exact ih t mp (fun x hx => h1 x (List.mem_cons_of_mem kv hx))
          (fun x hx => h2 x (List.mem_cons_of_mem kv hx))
    · have hstep : decodeFieldStep
          (some { translation := t, randomVerse := rv }) kv =
          some { translation := t, randomVerse := rv } := by
        simp [decodeFieldStep, hk1, hk2]
      rw [hstep]
      exact ih t rv (fun x hx => h1 x (List.mem_cons_of_mem kv hx))
        (fun x hx => h2 x (List.mem_cons_of_mem kv hx))

/-- Symmetric to `foldl_decodeFieldStep_noTrans`, with the roles of
the two fields swapped. -/
theorem foldl_decodeFieldStep_noRV (fs : List (String × Json)) :
    ∀ (t rv : List (String × Json)),
      (∀ kv ∈ fs, foldKey kv.1 ≠ "random_verse") →
      (∀ kv ∈ fs, foldKey kv.1 = "translation" →
        decodeStringMap kv.2 ≠ none) →
      ∃ t2, fs.foldl decodeFieldStep
          (some { translation := t, randomVerse := rv }) =
        some { translation := t2, randomVerse := rv } := by
  induction fs with
  | nil => exact fun t rv _ _ => ⟨t, rfl⟩
  | cons kv tl ih =>
    intro t rv h1 h2
    have hk1 := h1 kv (List.mem_cons_self kv tl)
    by_cases hk2 : foldKey kv.1 = "translation"
    · have hd := h2 kv (List.mem_cons_self kv tl) hk2
      cases hm : decodeStringMap kv.2 with
      | none => exact absurd hm hd
      | some mp =>
        rw [List.foldl_cons]
        have hstep : decodeFieldStep
            (some { translation := t, randomVerse := rv }) kv =
            some { translation := mp, randomVerse := rv } := by
          simp [decodeFieldStep, hk2, hm]
        rw [hstep]
        exact ih mp rv (fun x hx => h1 x (List.mem_cons_of_mem kv hx))
          (fun x hx => h2 x (List.mem_cons_of_mem kv hx))
    · rw [List.foldl_cons]
      have hstep : decodeFieldStep
          (some { translation := t, randomVerse := rv }) kv =
          some { translation := t, randomVerse := rv } := by
        simp [decodeFieldStep, hk1, hk2]
      rw [hstep]
      exact ih t rv (fun x hx => h1 x (List.mem_cons_of_mem kv hx))
        (fun x hx => h2 x (List.mem_cons_of_mem kv hx))

/-- On a 200 response whose capped body parses as the object `fs`,
`getBibleVerse` is the struct decoding of that object. -/
theorem getBibleVerse_parsed_obj (fs : List (String × Json))
    (body : List Char)
    (hp : parseJson (body.take (10 * 1024)) = some (Json.obj fs)) :
    getBibleVerse (GetResult.response 200 none body) =
      (match fs.foldl decodeFieldStep
          (some { translation := [], randomVerse := [] }) with
       | none => Except.error FetchError.decodeFailed
       | some verse => Except.ok verse) := by
  rw [getBibleVerse_200]
  unfold unmarshal
  rw [hp]
  rfl

/-- Counterexample for C10: `\x7b"random_verse":5\x7d` is a valid JSON
object lacking the `translation` field, yet `getBibleVerse` fails
(the present `random_verse` member has a non-object value, an
`UnmarshalTypeError`) instead of succeeding with an empty mapping. -/
theorem claim_C10_counterexample :
    parseJson ("\x7b\"random_verse\":5\x7d".data) =
      some (Json.obj [("random_verse", Json.num 5)])
    ∧ "translation" ∉ [("random_verse", Json.num 5)].map Prod.fst
    ∧ getBibleVerse
        (GetResult.response 200 none ("\x7b\"random_verse\":5\x7d".data)) =
      Except.error FetchError.decodeFailed :=
  ⟨rfl, by decide, rfl⟩

/-- Claim C10, amended: for every 200 response whose capped body is a
valid JSON object, (a) if no member matches (case-insensitively)
either struct field, `getBibleVerse` succeeds with both mappings empty
and the verse command sends a rich card whose body is exactly the two
headers with zero entry lines; (b) if no member matches `translation`
and every `random_verse` member decodes, the payload has an empty
`translation` and the card shows zero lines under the first header;
(c) symmetrically for a missing `random_verse`.  (A present member
that matches a field but does not decode as an object/null makes the
fetch fail instead — the qualification the counterexample forces.) -/
theorem claim_C10_missing_fields (fs : List (String × Json))
    (body : List Char) (selfID : String) (m : IncomingMessage)
    (now : String) (sendErr : Option String)
    (hp : parseJson (body.take (10 * 1024)) = some (Json.obj fs)) :
    ((∀ kv ∈ fs, foldKey kv.1 ≠ "translation" ∧
        foldKey kv.1 ≠ "random_verse") →
      getBibleVerse (GetResult.response 200 none body) =
        Except.ok { translation := [], randomVerse := [] }
      ∧ (m.authorID ≠ selfID → hasPrefixOf m.content cmdMark = true →
          (fields (trimPrefixOf m.content cmdMark)).head? = some "verse" →
          (messageCreate selfID m (GetResult.response 200 none body) now
              sendErr).1 =
            [Send.embed m.channelID
              { title := verseTitle
              , description := transHeader ++ rvHeader
              , color := 0x3498db
              , timestamp := now }]))
    ∧ ((∀ kv ∈ fs, foldKey kv.1 ≠ "translation") →
       (∀ kv ∈ fs, foldKey kv.1 = "random_verse" →
          decodeStringMap kv.2 ≠ none) →
       ∃ rv, getBibleVerse (GetResult.response 200 none body) =
            Except.ok { translation := [], randomVerse := rv }
          ∧ (createVerseEmbed { translation := [], randomVerse := rv }
              now).description =
              transHeader ++ rvHeader ++ concatLines (rv.map entryLine))
    ∧ ((∀ kv ∈ fs, foldKey kv.1 ≠ "random_verse") →
       (∀ kv ∈ fs, foldKey kv.1 = "translation" →
          decodeStringMap kv.2 ≠ none) →
       ∃ t, getBibleVerse (GetResult.response 200 none body) =
            Except.ok { translation := t, randomVerse := [] }
          ∧ (createVerseEmbed { translation := t, randomVerse := [] }
              now).description =
              transHeader ++ concatLines (t.map entryLine) ++ rvHeader) := by
  refine ⟨fun hboth => ?_, fun h1 h2 => ?_, fun h1 h2 => ?_⟩
  · have hok : getBibleVerse (GetResult.response 200 none body) =
        Except.ok { translation := [], randomVerse := [] } := by
      rw [getBibleVerse_parsed_obj fs body hp,
        foldl_decodeFieldStep_skip fs _ hboth]
    refine ⟨hok, fun hns hpx hvt => ?_⟩
    rw [messageCreate_sends, if_neg hns, if_pos hpx]
    cases hf : fields (trimPrefixOf m.content cmdMark) with
    | nil => rw [hf] at hvt; exact absurd hvt (by simp)
    | cons command rest =>
      rw [hf] at hvt
      rw [List.head?_cons] at hvt
      obtain rfl := Option.some.inj hvt
      simp only [hok]
      simp [createVerseEmbed_eq, concatLines, strAppend_empty]
  · obtain ⟨rv, hrv⟩ := foldl_decodeFieldStep_noTrans fs [] [] h1 h2
    refine ⟨rv, ?_, ?_⟩
    · rw [getBibleVerse_parsed_obj fs body hp, hrv]
    · rw [createVerseEmbed_eq]
      simp only [List.map_nil, concatLines, strAppend_empty]
  · obtain ⟨t, ht⟩ := foldl_decodeFieldStep_noRV fs [] [] h1 h2
    refine ⟨t, ?_, ?_⟩
    · rw [getBibleVerse_parsed_obj fs body hp, ht]
    · rw [createVerseEmbed_eq]
      simp only [List.map_nil, concatLines, strAppend_empty]

/-- Witness for the amended C10 at the empty JSON object. -/
theorem claim_C10_witness :
    getBibleVerse (GetResult.response 200 none ("\x7b\x7d".data)) =
      Except.ok { translation := [], randomVerse := [] }
    ∧ (messageCreate "bot" ⟨"u1", "alice", "chan", "!verse"⟩
        (GetResult.response 200 none ("\x7b\x7d".data)) "T" none).1 =
      [Send.embed "chan"
        { title := verseTitle
        , description := transHeader ++ rvHeader
        , color := 0x3498db
        , timestamp := "T" }] := by
  have h := (claim_C10_missing_fields [] ("\x7b\x7d".data) "bot"
    ⟨"u1", "alice", "chan", "!verse"⟩ "T" none rfl).1 (by simp)
  exact ⟨h.1, h.2 (by decide) (by decide) (by decide)⟩
